import Mathlib

/-!
Verification of the KDL documentation-maintenance scripts.

The repository consists of three Python scripts that scan markdown documents
for fenced `kdl` code blocks, validate each fragment with an external
validator binary, and heuristically rewrite invalid fragments:

* `complete_all_configs.py` — classify a fragment (syntax example vs partial
  config) and complete it with boilerplate blocks, substituting the rewrite
  only when it validates;
* `convert_agent_syntax.py` — five regex dialect rules plus a one-shot
  `service-type "builtin"` strip-and-retry;
* `fix_configs.py` — `server` → `system` keyword replacement and
  unconditional wrapping of structurally incomplete fragments (this script
  never consults the validator).

Shallow embedding conventions:

* Fragments and documents are `List Char`.
* The external validator process is opaque; every function that calls
  `test_config` in Python takes a parameter `valid : List Char → Bool`
  standing for the validator's verdict on a candidate text. (`test_config`'s
  own exit-status logic is modelled separately for claim C6.)
* Python regular expressions are embedded per pattern.  Every pattern used by
  the scripts is a sequence of literals and the greedy pieces `\s*`, `\s+`,
  `[^"]+`, `[^\]]+`, `\d+`, `\w+`, each immediately followed by an element
  whose first character is outside the repeated class, so greedy matching
  with backtracking is equivalent to maximal munch; the matchers below use
  `takeWhile`/`dropWhile` accordingly.  `re.sub` scans left to right,
  non-overlapping, resuming after each match, which `subScanF` implements.
  The character classes `\s`, `\w`, `\d` are modelled over ASCII (the
  documents are ASCII).
-/

set_option maxHeartbeats 1000000
set_option maxRecDepth 8192

namespace KdlDocs

/-- Python's `\s` class (ASCII): space, tab, newline, carriage return,
vertical tab, form feed. -/
def isWs (c : Char) : Bool :=
  c == ' ' || c == '\t' || c == '\n' || c == '\r' || c == '\x0b' || c == '\x0c'

/-- Python's `\w` class (ASCII): letters, digits, underscore. -/
def isWordChar (c : Char) : Bool :=
  c.isAlphanum || c == '_'

/-- Python `str.strip()`: remove leading and trailing whitespace. -/
def pyStrip (l : List Char) : List Char :=
  ((l.dropWhile isWs).reverse.dropWhile isWs).reverse

/-- Python `len(s.split('\n'))`: number of newline characters plus one. -/
def pyLineCount (l : List Char) : Nat :=
  (l.filter (· == '\n')).length + 1

/-- The suffixes of `l` that start just after a `'\n'`.  Together with `l`
itself these are the positions where `^` matches in `re.MULTILINE` mode. -/
def lineSuffixes : List Char → List (List Char)
  | [] => []
  | c :: rest => if c == '\n' then rest :: lineSuffixes rest else lineSuffixes rest

/-- All positions (as suffixes) where `^` matches under `re.MULTILINE`:
the start of the string and every position following a newline. -/
def lineStarts (l : List Char) : List (List Char) :=
  l :: lineSuffixes l

/-- Python's substring test `pat in l`. -/
def containsSubstr (l pat : List Char) : Bool :=
  match l with
  | [] => pat.isPrefixOf []
  | c :: rest => pat.isPrefixOf (c :: rest) || containsSubstr rest pat

/-- Match a literal at the head of `l`; on success return the remainder. -/
def dropLit (lit l : List Char) : Option (List Char) :=
  if lit.isPrefixOf l then some (l.drop lit.length) else none

/-- One left-to-right, non-overlapping `re.sub` pass, fuelled for structural
recursion (fuel is initialised to the length of the list, which suffices
because every match consumes at least one character).  `tm l` returns the
replacement text together with the number of characters of `l` the match
consumed.  A (never occurring) zero-length match is treated as no match. -/
def subScanF (tm : List Char → Option (List Char × Nat)) : Nat → List Char → List Char
  | 0, l => l
  | _ + 1, [] => []
  | fuel + 1, c :: rest =>
    match tm (c :: rest) with
    | some (repl, n + 1) => repl ++ subScanF tm fuel ((c :: rest).drop (n + 1))
    | _ => c :: subScanF tm fuel rest

/-- `re.sub` with pattern matcher `tm` over the whole string. -/
def subScan (tm : List Char → Option (List Char × Nat)) (l : List Char) : List Char :=
  subScanF tm l.length l

/- ## complete_all_configs.py -/

/-- `has_block(config, block_name)` (`complete_all_configs.py` lines 33–36 and
identically `fix_configs.py` lines 30–33): `re.search(rf'^\s*{name}\s*\{{'`,
`re.MULTILINE)`.  A match must start at a line start; `\s*` may span
newlines; the block name must then be followed by optional whitespace and an
opening brace. -/
def blockAt (name : List Char) (l : List Char) : Bool :=
  let l1 := l.dropWhile isWs
  name.isPrefixOf l1 &&
    (match (l1.drop name.length).dropWhile isWs with
     | c :: _ => c == '\x7b'
     | [] => false)

/-- `has_block(config, block_name)`. -/
def has_block (config name : List Char) : Bool :=
  (lineStarts config).any (blockAt name)

/-- The block names the scripts query with `has_block`. -/
def systemName : List Char := "system".toList

/-- Block name `listeners`. -/
def listenersName : List Char := "listeners".toList

/-- Block name `routes`. -/
def routesName : List Char := "routes".toList

/-- Block name `upstreams`. -/
def upstreamsName : List Char := "upstreams".toList

/-- `get_first_word(config)` (lines 38–41): first `^\s*(\w+)` match in
`config.strip()` under `re.MULTILINE`: at the leftmost line start from which
skipping whitespace reaches a word character, the maximal word-character run. -/
def wordAt (l : List Char) : List Char :=
  (l.dropWhile isWs).takeWhile isWordChar

/-- `get_first_word(config)`. -/
def get_first_word (config : List Char) : Option (List Char) :=
  (lineStarts (pyStrip config)).findSome? fun l =>
    let w := wordAt l
    if w.isEmpty then none else some w

/-- The `syntax_keywords` list of `is_syntax_example` (lines 47–48). -/
def syntaxExampleKeywords : List (List Char) :=
  ["name".toList, "port".toList, "weight".toList, "enabled".toList,
   "disabled".toList, "optional-field".toList, "key".toList, "value".toList,
   "my-field".toList]

/-- `is_syntax_example(config)` (lines 43–49). -/
def is_syntax_example (config : List Char) : Bool :=
  match get_first_word config with
  | some w => syntaxExampleKeywords.contains w
  | none => false

/-- The `system { worker-threads 0 }` completion template (lines 94–96). -/
def systemTemplate : List Char :=
  "system \x7b\n    worker-threads 0\n\x7d".toList

/-- The `listeners` completion template (lines 100–105). -/
def listenersTemplate : List Char :=
  "listeners \x7b\n    listener \"http\" \x7b\n        address \"0.0.0.0:8080\"\n        protocol \"http\"\n    \x7d\n\x7d".toList

/-- The `routes` completion template (lines 116–121; textually identical in
`fix_configs.py` lines 95–100). -/
def routesTemplate : List Char :=
  "routes \x7b\n    route \"default\" \x7b\n        matches \x7b path-prefix \"/\" \x7d\n        upstream \"backend\"\n    \x7d\n\x7d".toList

/-- The `upstreams` completion template (lines 125–131; textually identical in
`fix_configs.py` lines 77–83 and 88–94). -/
def upstreamsTemplate : List Char :=
  "upstreams \x7b\n    upstream \"backend\" \x7b\n        targets \x7b\n            target \x7b address \"127.0.0.1:3000\" \x7d\n        \x7d\n    \x7d\n\x7d".toList

/-- The constant prefix of the syntax-example wrapper f-string of
`complete_config` (lines 59–88), everything before the interpolated
`{config}`. -/
def syntaxWrapperPrefix : List Char :=
  ("// KDL Syntax Example (not a complete config)\nsystem \x7b\n    worker-threads 0\n\x7d\n\nlisteners \x7b\n    listener \"http\" \x7b\n        address \"0.0.0.0:8080\"\n        protocol \"http\"\n    \x7d\n\x7d\n\nroutes \x7b\n    route \"example\" \x7b\n        matches \x7b path-prefix \"/\" \x7d\n        upstream \"backend\"\n    \x7d\n\x7d\n\nupstreams \x7b\n    upstream \"backend\" \x7b\n        targets \x7b\n            target \x7b address \"127.0.0.1:3000\" \x7d\n        \x7d\n    \x7d\n\x7d\n\n// The syntax being demonstrated:\n// ").toList

/-- The syntax-example wrapper f-string (lines 59–88): constant boilerplate,
then the original fragment interpolated verbatim, then a final newline. -/
def syntaxWrapper (config : List Char) : List Char :=
  syntaxWrapperPrefix ++ config ++ ['\n']

/-- The `parts` list assembled by `complete_config` (lines 90–131):
system template if absent, listeners template if absent, the stripped
fragment, routes template if absent, and the upstreams template whenever
routes was absent (`needs_upstreams = True` on line 122) or upstreams is
absent. -/
def completionParts (config : List Char) : List (List Char) :=
  let parts1 : List (List Char) :=
    if has_block config systemName then [] else [systemTemplate]
  let parts2 := parts1 ++
    (if has_block config listenersName then [] else [listenersTemplate])
  let parts3 := parts2 ++ [pyStrip config]
  let needsRoutes := !(has_block config routesName)
  let needsUpstreams0 := !(has_block config upstreamsName)
  let parts4 := if needsRoutes then parts3 ++ [routesTemplate] else parts3
  if needsRoutes || needsUpstreams0 then parts4 ++ [upstreamsTemplate] else parts4

/-- `completed = "\n\n".join(parts)` (line 133). -/
def completedCandidate (config : List Char) : List Char :=
  List.intercalate "\n\n".toList (completionParts config)

/-- `complete_config(config)` (lines 51–140), with the validator verdict
abstracted as `valid`.  Returns the fragment if it validates; wraps syntax
examples; otherwise returns the assembled completion if that validates, and
the original fragment if not. -/
def complete_config (valid : List Char → Bool) (config : List Char) : List Char :=
  if valid config then config
  else if is_syntax_example config then syntaxWrapper config
  else
    let completed := completedCandidate config
    if valid completed then completed else config

/-- The fragment-level behaviour of `fix_kdl_block` in
`complete_all_configs.process_file` (lines 150–171): keep a valid fragment;
otherwise substitute `complete_config`'s rewrite only when it differs from
the fragment and itself validates, else keep the original fragment. -/
def fix_kdl_block (valid : List Char → Bool) (kdl : List Char) : List Char :=
  if valid kdl then kdl
  else
    let completed := complete_config valid kdl
    if completed ≠ kdl ∧ valid completed = true then completed else kdl

/- ## test_config (complete_all_configs.py lines 16–31) -/

/-- Outcome of the validator subprocess invocation inside `test_config`:
the process ran to completion with an exit code, or `subprocess.run` raised
(timeout after 3 s, binary missing, or any other error — the script's bare
`except:` treats them all alike). -/
inductive RunOutcome where
  | exited (code : Int)
  | timedOut
  | failedToRun
deriving DecidableEq

/-- `test_config` (lines 16–31): `return result.returncode == 0`, with every
exception path returning `False`. -/
def test_config (outcome : RunOutcome) : Bool :=
  match outcome with
  | .exited code => code == 0
  | .timedOut => false
  | .failedToRun => false

/- ## convert_agent_syntax.py -/

/-- Pattern 1 (lines 35–51):
`(\s*)transport\s+"unix_socket"\s*\{\s*path\s+"[^"]+"\s*\}` replaced by
`{indent}unix-socket "{path}"`, where the indent defaults to four spaces when
the captured `(\s*)` is empty and the path is re-extracted from the matched
text by `re.search(r'path\s+"([^"]+)"')` (necessarily the same path). -/
def tmTransportUnix (l : List Char) : Option (List Char × Nat) :=
  match dropLit "transport".toList (l.dropWhile isWs) with
  | none => none
  | some r2 =>
    if (r2.takeWhile isWs).isEmpty then none
    else
      match dropLit "\"unix_socket\"".toList (r2.dropWhile isWs) with
      | none => none
      | some r4 =>
        match dropLit ['\x7b'] (r4.dropWhile isWs) with
        | none => none
        | some r6 =>
          match dropLit "path".toList (r6.dropWhile isWs) with
          | none => none
          | some r8 =>
            if (r8.takeWhile isWs).isEmpty then none
            else
              match dropLit ['"'] (r8.dropWhile isWs) with
              | none => none
              | some r10 =>
                let path := r10.takeWhile (· != '"')
                if path.isEmpty then none
                else
                  match dropLit ['"'] (r10.dropWhile (· != '"')) with
                  | none => none
                  | some r12 =>
                    match dropLit ['\x7d'] (r12.dropWhile isWs) with
                    | none => none
                    | some r14 =>
                      let ws1 := l.takeWhile isWs
                      let indent := if ws1.isEmpty then "    ".toList else ws1
                      some (indent ++ "unix-socket \"".toList ++ path ++ ['"'],
                            l.length - r14.length)

/-- Pattern 2 (lines 53–67): `(\s*)transport\s+"grpc"\s*\{\s*url\s+"[^"]+"\s*\}`
replaced by `{indent}grpc "{url}"`, with the same indent defaulting. -/
def tmTransportGrpc (l : List Char) : Option (List Char × Nat) :=
  match dropLit "transport".toList (l.dropWhile isWs) with
  | none => none
  | some r2 =>
    if (r2.takeWhile isWs).isEmpty then none
    else
      match dropLit "\"grpc\"".toList (r2.dropWhile isWs) with
      | none => none
      | some r4 =>
        match dropLit ['\x7b'] (r4.dropWhile isWs) with
        | none => none
        | some r6 =>
          match dropLit "url".toList (r6.dropWhile isWs) with
          | none => none
          | some r8 =>
            if (r8.takeWhile isWs).isEmpty then none
            else
              match dropLit ['"'] (r8.dropWhile isWs) with
              | none => none
              | some r10 =>
                let url := r10.takeWhile (· != '"')
                if url.isEmpty then none
                else
                  match dropLit ['"'] (r10.dropWhile (· != '"')) with
                  | none => none
                  | some r12 =>
                    match dropLit ['\x7d'] (r12.dropWhile isWs) with
                    | none => none
                    | some r14 =>
                      let ws1 := l.takeWhile isWs
                      let indent := if ws1.isEmpty then "    ".toList else ws1
                      some (indent ++ "grpc \"".toList ++ url ++ ['"'],
                            l.length - r14.length)

/-- `re.findall(r'"([^"]+)"', s)` used by `replace_events_array` (line 74):
all non-overlapping non-empty quoted contents, scanning left to right. -/
def findQuotedF : Nat → List Char → List (List Char)
  | 0, _ => []
  | _ + 1, [] => []
  | fuel + 1, c :: rest =>
    if c == '"' then
      let content := rest.takeWhile (· != '"')
      if content.isEmpty then findQuotedF fuel rest
      else
        match rest.dropWhile (· != '"') with
        | '"' :: rest2 => content :: findQuotedF fuel rest2
        | _ => []
    else findQuotedF fuel rest

/-- `re.findall(r'"([^"]+)"', s)`. -/
def findQuoted (l : List Char) : List (List Char) :=
  findQuotedF l.length l

/-- Pattern 3 (lines 69–84): `(\s*)events\s+\[([^\]]+)\]` replaced by
`{indent}events "e1" "e2" …` when the bracket content holds quoted strings,
otherwise left as matched. -/
def tmEvents (l : List Char) : Option (List Char × Nat) :=
  match dropLit "events".toList (l.dropWhile isWs) with
  | none => none
  | some r2 =>
    if (r2.takeWhile isWs).isEmpty then none
    else
      match dropLit ['['] (r2.dropWhile isWs) with
      | none => none
      | some r4 =>
        let content := r4.takeWhile (· != ']')
        if content.isEmpty then none
        else
          match dropLit [']'] (r4.dropWhile (· != ']')) with
          | none => none
          | some r6 =>
            let consumed := l.length - r6.length
            let evs := findQuoted content
            if evs.isEmpty then some (l.take consumed, consumed)
            else
              let ws1 := l.takeWhile isWs
              some (ws1 ++ "events ".toList ++
                      List.intercalate [' '] (evs.map fun e => '"' :: e ++ ['"']),
                    consumed)

/-- Pattern 4 (lines 86–102): `agent\s+"[^"]+"\s*\{`; if the matched text does
not contain `type=`, the inner `re.sub(r'(agent\s+"[^"]+")(\s*\{)',
r'\1 type="custom"\2')` inserts ` type="custom"` before the brace part. -/
def tmAgent (l : List Char) : Option (List Char × Nat) :=
  match dropLit "agent".toList l with
  | none => none
  | some r1 =>
    let ws1 := r1.takeWhile isWs
    if ws1.isEmpty then none
    else
      match dropLit ['"'] (r1.dropWhile isWs) with
      | none => none
      | some r3 =>
        let name := r3.takeWhile (· != '"')
        if name.isEmpty then none
        else
          match dropLit ['"'] (r3.dropWhile (· != '"')) with
          | none => none
          | some r5 =>
            let ws2 := r5.takeWhile isWs
            match dropLit ['\x7b'] (r5.dropWhile isWs) with
            | none => none
            | some r7 =>
              let consumed := l.length - r7.length
              let matched := l.take consumed
              if containsSubstr matched "type=".toList then some (matched, consumed)
              else
                some ("agent".toList ++ ws1 ++ '"' :: name ++ '"' ::
                        " type=\"custom\"".toList ++ ws2 ++ ['\x7b'],
                      consumed)

/-- Pattern 5a (line 105): `schema-content\s+r#"` replaced by
`schema-content "`. -/
def tmSchemaOpen (l : List Char) : Option (List Char × Nat) :=
  match dropLit "schema-content".toList l with
  | none => none
  | some r1 =>
    if (r1.takeWhile isWs).isEmpty then none
    else
      match dropLit "r#\"".toList (r1.dropWhile isWs) with
      | none => none
      | some r2 => some ("schema-content \"".toList, l.length - r2.length)

/-- Pattern 5b (line 106): `"#\s*\n\s*\}` replaced by `"\n    }`.  The greedy
`\s*\n\s*` pieces jointly match the maximal whitespace run after `"#`
provided it contains a newline, and `\}` must follow that run. -/
def tmHashClose (l : List Char) : Option (List Char × Nat) :=
  match dropLit "\"#".toList l with
  | none => none
  | some r1 =>
    let run := r1.takeWhile isWs
    if run.contains '\n' then
      match dropLit ['\x7d'] (r1.dropWhile isWs) with
      | none => none
      | some r2 => some ("\"\n    \x7d".toList, l.length - r2.length)
    else none

/-- `convert_agent_syntax(config)` (lines 32–108): the five substitution
passes in source order. -/
def convert_agent_syntax (config : List Char) : List Char :=
  let c1 := subScan tmTransportUnix config
  let c2 := subScan tmTransportGrpc c1
  let c3 := subScan tmEvents c2
  let c4 := subScan tmAgent c3
  let c5 := subScan tmSchemaOpen c4
  subScan tmHashClose c5

/-- The retry substitution of `convert_agent_syntax.fix_kdl_block` (line 139):
`re.sub(r'\s*service-type\s+"builtin"', '', …)`. -/
def tmServiceType (l : List Char) : Option (List Char × Nat) :=
  match dropLit "service-type".toList (l.dropWhile isWs) with
  | none => none
  | some r1 =>
    if (r1.takeWhile isWs).isEmpty then none
    else
      match dropLit "\"builtin\"".toList (r1.dropWhile isWs) with
      | none => none
      | some r2 => some ([], l.length - r2.length)

/-- `re.sub(r'\s*service-type\s+"builtin"', '', converted)` (line 139). -/
def stripServiceType (l : List Char) : List Char :=
  subScan tmServiceType l

/-- The fragment-level behaviour of `fix_kdl_block` in
`convert_agent_syntax.process_file` (lines 118–145): keep a valid fragment;
if conversion changed it, substitute the conversion when it validates;
otherwise, if it contains `service-type "builtin"`, strip that directive and
substitute the result when that validates; in every other case keep the
original fragment. -/
def convert_fix_kdl_block (valid : List Char → Bool) (kdl : List Char) : List Char :=
  if valid kdl then kdl
  else
    let converted := convert_agent_syntax kdl
    if converted ≠ kdl then
      if valid converted then converted
      else
        if containsSubstr converted "service-type \"builtin\"".toList then
          let converted2 := stripServiceType converted
          if valid converted2 then converted2 else kdl
        else kdl
    else kdl

/- ## fix_configs.py -/

/-- The match of `fix_deprecated_server_keyword`'s pattern `\bserver\s*{`
(line 43) at the current position, assuming the word-boundary before the
position has already been checked. -/
def tmServer (l : List Char) : Option (List Char × Nat) :=
  match dropLit "server".toList l with
  | none => none
  | some r1 =>
    match dropLit ['\x7b'] (r1.dropWhile isWs) with
    | none => none
    | some r2 => some ("system \x7b".toList, l.length - r2.length)

/-- The `re.sub(r'\bserver\s*{', 'system {', …)` scan.  `atBoundary` records
whether `\b` holds at the current position, i.e. whether the previous
character (`'{'` just after a replacement) is not a word character; it is
true at the start of the string. -/
def serverSubF : Nat → Bool → List Char → List Char
  | 0, _, l => l
  | _ + 1, _, [] => []
  | fuel + 1, atBoundary, c :: rest =>
    match (if atBoundary then tmServer (c :: rest) else none) with
    | some (repl, n + 1) => repl ++ serverSubF fuel true ((c :: rest).drop (n + 1))
    | _ => c :: serverSubF fuel (!(isWordChar c)) rest

/-- `fix_deprecated_server_keyword(config)` (lines 41–43). -/
def fix_deprecated_server_keyword (config : List Char) : List Char :=
  serverSubF config.length true config

/-- `is_complete_config(config)` (`fix_configs.py` lines 35–39). -/
def is_complete_config (config : List Char) : Bool :=
  (has_block config "system".toList || has_block config "server".toList) &&
    has_block config "listeners".toList

/-- One candidate position of `should_skip_wrapping`'s first pattern
`route\s+"[^"]+"\s*\{\s*priority\s+\d+\s*\}\s*$` (line 48).  The trailing
`\s*$` (MULTILINE) holds iff the maximal whitespace run after `}` contains a
newline or extends to the end of the string. -/
def matchRoutePriorityAt (l : List Char) : Bool :=
  match dropLit "route".toList l with
  | none => false
  | some r1 =>
    if (r1.takeWhile isWs).isEmpty then false
    else
      match dropLit ['"'] (r1.dropWhile isWs) with
      | none => false
      | some r2 =>
        if (r2.takeWhile (· != '"')).isEmpty then false
        else
          match dropLit ['"'] (r2.dropWhile (· != '"')) with
          | none => false
          | some r3 =>
            match dropLit ['\x7b'] (r3.dropWhile isWs) with
            | none => false
            | some r4 =>
              match dropLit "priority".toList (r4.dropWhile isWs) with
              | none => false
              | some r5 =>
                if (r5.takeWhile isWs).isEmpty then false
                else
                  let afterWs := r5.dropWhile isWs
                  if (afterWs.takeWhile Char.isDigit).isEmpty then false
                  else
                    match dropLit ['\x7d'] ((afterWs.dropWhile Char.isDigit).dropWhile isWs) with
                    | none => false
                    | some r6 =>
                      (r6.takeWhile isWs).contains '\n' || (r6.dropWhile isWs).isEmpty

/-- `re.search` of the route-priority pattern over the stripped fragment:
a match may start at any position. -/
def searchRoutePriority (l : List Char) : Bool :=
  l.tails.any matchRoutePriorityAt

/-- `re.match(r'^\s*agent\s+"[^"]+"\s+type=', config.strip())` (line 56):
anchored at the start of the stripped fragment. -/
def matchAgentType (l : List Char) : Bool :=
  match dropLit "agent".toList (l.dropWhile isWs) with
  | none => false
  | some r1 =>
    if (r1.takeWhile isWs).isEmpty then false
    else
      match dropLit ['"'] (r1.dropWhile isWs) with
      | none => false
      | some r2 =>
        if (r2.takeWhile (· != '"')).isEmpty then false
        else
          match dropLit ['"'] (r2.dropWhile (· != '"')) with
          | none => false
          | some r3 =>
            if (r3.takeWhile isWs).isEmpty then false
            else (dropLit "type=".toList (r3.dropWhile isWs)).isSome

/-- `should_skip_wrapping(config)` (lines 45–66): the four early-return
conditions, as a disjunction (each branch returns `True`). -/
def should_skip_wrapping (config : List Char) : Bool :=
  searchRoutePriority (pyStrip config)
  || ("waf \x7b".toList.isPrefixOf (pyStrip config) &&
        !(has_block config "agents".toList))
  || (matchAgentType (pyStrip config) &&
        !(has_block config "agents".toList))
  || (decide (pyLineCount (pyStrip config) ≤ 5) &&
        ("listeners \x7b".toList.isPrefixOf (pyStrip config) ||
         "limits \x7b".toList.isPrefixOf (pyStrip config)))

/-- The constant part of `MINIMAL_WRAPPER_TEMPLATE` (`fix_configs.py`
lines 14–28) before the interpolated `{content}`. -/
def minimalWrapperHeader : List Char :=
  ("// Documentation example - wrapped in minimal config for validation\nsystem \x7b\n    worker-threads 0\n\x7d\n\nlisteners \x7b\n    listener \"http\" \x7b\n        address \"0.0.0.0:8080\"\n        protocol \"http\"\n    \x7d\n\x7d\n\n").toList

/-- `wrap_incomplete_snippet(config)` (lines 68–105): skip per
`should_skip_wrapping`; otherwise fill `MINIMAL_WRAPPER_TEMPLATE` with the
fragment and the extra sections (upstreams when routes is present without
upstreams; upstreams-if-absent then routes when routes is absent) and strip
the result. -/
def wrap_incomplete_snippet (config : List Char) : List Char :=
  if should_skip_wrapping config then config
  else
    let extra1 : List (List Char) :=
      if has_block config "routes".toList && !(has_block config "upstreams".toList)
      then [upstreamsTemplate] else []
    let extra2 : List (List Char) :=
      if !(has_block config "routes".toList) then
        (if !(has_block config "upstreams".toList) then [upstreamsTemplate] else [])
          ++ [routesTemplate]
      else []
    pyStrip (minimalWrapperHeader ++ config ++ "\n\n".toList ++
      List.intercalate "\n\n".toList (extra1 ++ extra2))

/-- The fragment-level behaviour of `replace_kdl_block` in
`fix_configs.process_file` (lines 116–138): apply the `server` → `system`
replacement, then wrap unless the result is structurally complete.  Note
that no validator is consulted anywhere on this path. -/
def replace_kdl_block_fragment (kdl : List Char) : List Char :=
  let k1 := fix_deprecated_server_keyword kdl
  if is_complete_config k1 then k1 else wrap_incomplete_snippet k1

/- ## Document-level scanning: re.sub(r'(```kdl\n)(.*?)(```)', …, re.DOTALL) -/

/-- The literal `` ```kdl\n `` opening a fenced kdl block (group 1). -/
def fenceOpen : List Char := "```kdl\n".toList

/-- The literal `` ``` `` closing a fenced block (group 3). -/
def fenceClose : List Char := "```".toList

/-- Find the first occurrence of the closing fence (the lazy `.*?` of the
pattern): returns the content before it and the remainder after it. -/
def findClose : List Char → Option (List Char × List Char)
  | [] => none
  | c :: rest =>
    if fenceClose.isPrefixOf (c :: rest) then some ([], (c :: rest).drop 3)
    else
      match findClose rest with
      | some (content, after) => some (c :: content, after)
      | none => none

/-- The document scan of `process_file`: at each position, if the opening
fence matches and a closing fence follows, replace the whole matched region
by `repl content` and resume after the close; otherwise keep the character.
`repl` receives group 2 and produces the full replacement of group 0. -/
def kdlSubF (repl : List Char → List Char) : Nat → List Char → List Char
  | 0, l => l
  | _ + 1, [] => []
  | fuel + 1, c :: rest =>
    if fenceOpen.isPrefixOf (c :: rest) then
      match findClose ((c :: rest).drop 7) with
      | some (content, after) => repl content ++ kdlSubF repl fuel after
      | none => c :: kdlSubF repl fuel rest
    else c :: kdlSubF repl fuel rest

/-- `re.sub(r'(```kdl\n)(.*?)(```)', repl, doc, flags=re.DOTALL)`. -/
def kdlSub (repl : List Char → List Char) (doc : List Char) : List Char :=
  kdlSubF repl doc.length doc

/-- The replacement `fix_kdl_block` of `complete_all_configs.process_file`
performs on a whole matched region (lines 150–171): `match.group(0)` when the
fragment validates or no accepted completion exists, and
`prefix + completed + '\n' + suffix` when the completion is accepted. -/
def completeAllRepl (valid : List Char → Bool) (content : List Char) : List Char :=
  if valid content then fenceOpen ++ content ++ fenceClose
  else
    let completed := complete_config valid content
    if completed ≠ content ∧ valid completed = true then
      fenceOpen ++ completed ++ '\n' :: fenceClose
    else fenceOpen ++ content ++ fenceClose

/-- `complete_all_configs.process_file` on a document (line 173). -/
def process_file_complete_all (valid : List Char → Bool) (doc : List Char) : List Char :=
  kdlSub (completeAllRepl valid) doc

/-- The replacement `replace_kdl_block` of `fix_configs.process_file`
performs on a whole matched region (line 138): always
`prefix + kdl_content + '\n' + suffix`, even when the fragment is unchanged. -/
def fixConfigsRepl (content : List Char) : List Char :=
  fenceOpen ++ replace_kdl_block_fragment content ++ '\n' :: fenceClose

/-- `fix_configs.process_file` on a document (line 140). -/
def process_file_fix_configs (doc : List Char) : List Char :=
  kdlSub fixConfigsRepl doc

/- ## Infrastructure lemmas -/

theorem isPrefixOf_append_self : ∀ (a b : List Char), a.isPrefixOf (a ++ b) = true := by
  intro a b
  induction a with
  | nil => simp [List.isPrefixOf]
  | cons c as ih => simp [List.isPrefixOf, ih]

theorem eq_append_drop_of_isPrefixOf :
    ∀ (a l : List Char), a.isPrefixOf l = true → l = a ++ l.drop a.length := by
  intro a
  induction a with
  | nil => intro l _; simp
  | cons c as ih =>
    intro l h
    cases l with
    | nil => simp [List.isPrefixOf] at h
    | cons d ds =>
      simp only [List.isPrefixOf, Bool.and_eq_true, beq_iff_eq] at h
      obtain ⟨rfl, h2⟩ := h
      simpa using ih ds h2

theorem containsSubstr_of_isPrefixOf {pat l : List Char}
    (h : pat.isPrefixOf l = true) : containsSubstr l pat = true := by
  cases l with
  | nil => simpa [containsSubstr] using h
  | cons c rest => simp [containsSubstr, h]

theorem containsSubstr_append_left :
    ∀ (pre rest pat : List Char), containsSubstr rest pat = true →
      containsSubstr (pre ++ rest) pat = true := by
  intro pre
  induction pre with
  | nil => intro rest pat h; simpa using h
  | cons c pre' ih =>
    intro rest pat h
    simp only [List.cons_append, containsSubstr, Bool.or_eq_true]
    exact Or.inr (ih rest pat h)

theorem containsSubstr_dropWhile {p : Char → Bool} {l pat : List Char}
    (h : containsSubstr (l.dropWhile p) pat = true) : containsSubstr l pat = true := by
  have := containsSubstr_append_left (l.takeWhile p) (l.dropWhile p) pat h
  rwa [List.takeWhile_append_dropWhile] at this

theorem containsSubstr_drop {l pat : List Char} {n : Nat}
    (h : containsSubstr (l.drop n) pat = true) : containsSubstr l pat = true := by
  have := containsSubstr_append_left (l.take n) (l.drop n) pat h
  rwa [List.take_append_drop] at this

theorem dropLit_isPrefixOf {lit l r : List Char}
    (h : dropLit lit l = some r) : lit.isPrefixOf l = true := by
  unfold dropLit at h
  by_cases hp : lit.isPrefixOf l = true
  · exact hp
  · simp [hp] at h

/-- If a matcher never fires on any suffix of `l`, the substitution pass is
the identity. -/
theorem subScanF_id (tm : List Char → Option (List Char × Nat)) :
    ∀ (fuel : Nat) (l : List Char), (∀ n, tm (l.drop n) = none) →
      subScanF tm fuel l = l := by
  intro fuel
  induction fuel with
  | zero => intro l _; rfl
  | succ fuel ih =>
    intro l h
    cases l with
    | nil => rfl
    | cons c rest =>
      have h0 : tm (c :: rest) = none := by simpa using h 0
      have hrec : ∀ n, tm (rest.drop n) = none := by
        intro n; simpa [List.drop_succ_cons] using h (n + 1)
      simp [subScanF, h0, ih rest hrec]

theorem containsSubstr_drop_eq_false {l pat : List Char}
    (h : containsSubstr l pat = false) (n : Nat) :
    containsSubstr (l.drop n) pat = false := by
  cases hc : containsSubstr (l.drop n) pat with
  | false => rfl
  | true => exact absurd (containsSubstr_drop hc) (by simp [h])

theorem tmTransportUnix_none {l : List Char}
    (h : containsSubstr l "transport".toList = false) : tmTransportUnix l = none := by
  unfold tmTransportUnix
  cases hd : dropLit "transport".toList (l.dropWhile isWs) with
  | none => rfl
  | some r2 =>
    have hc := containsSubstr_dropWhile (containsSubstr_of_isPrefixOf (dropLit_isPrefixOf hd))
    rw [hc] at h
    exact Bool.noConfusion h

theorem tmTransportGrpc_none {l : List Char}
    (h : containsSubstr l "transport".toList = false) : tmTransportGrpc l = none := by
  unfold tmTransportGrpc
  cases hd : dropLit "transport".toList (l.dropWhile isWs) with
  | none => rfl
  | some r2 =>
    have hc := containsSubstr_dropWhile (containsSubstr_of_isPrefixOf (dropLit_isPrefixOf hd))
    rw [hc] at h
    exact Bool.noConfusion h

theorem tmEvents_none {l : List Char}
    (h : containsSubstr l "events".toList = false) : tmEvents l = none := by
  unfold tmEvents
  cases hd : dropLit "events".toList (l.dropWhile isWs) with
  | none => rfl
  | some r2 =>
    have hc := containsSubstr_dropWhile (containsSubstr_of_isPrefixOf (dropLit_isPrefixOf hd))
    rw [hc] at h
    exact Bool.noConfusion h

theorem tmAgent_none {l : List Char}
    (h : containsSubstr l "agent".toList = false) : tmAgent l = none := by
  unfold tmAgent
  cases hd : dropLit "agent".toList l with
  | none => rfl
  | some r1 =>
    have hc := containsSubstr_of_isPrefixOf (dropLit_isPrefixOf hd)
    rw [hc] at h
    exact Bool.noConfusion h

theorem tmSchemaOpen_none {l : List Char}
    (h : containsSubstr l "schema-content".toList = false) : tmSchemaOpen l = none := by
  unfold tmSchemaOpen
  cases hd : dropLit "schema-content".toList l with
  | none => rfl
  | some r1 =>
    have hc := containsSubstr_of_isPrefixOf (dropLit_isPrefixOf hd)
    rw [hc] at h
    exact Bool.noConfusion h

theorem tmHashClose_none {l : List Char}
    (h : containsSubstr l "\"#".toList = false) : tmHashClose l = none := by
  unfold tmHashClose
  cases hd : dropLit "\"#".toList l with
  | none => rfl
  | some r1 =>
    have hc := containsSubstr_of_isPrefixOf (dropLit_isPrefixOf hd)
    rw [hc] at h
    exact Bool.noConfusion h

/- ## Claim theorems -/

/-- C6: the validation verdict of `test_config` is `true` exactly when the
validator subprocess ran to completion within the timeout and exited with
status zero; a non-zero exit status, a timeout or a failure to run the
process all yield `false` rather than a distinct error. -/
theorem claim6_validator_verdict :
    ∀ o : RunOutcome, test_config o = true ↔ o = RunOutcome.exited 0 := by
  intro o
  cases o with
  | exited c => simp [test_config]
  | timedOut => simp [test_config]
  | failedToRun => simp [test_config]

/-- C9: a fragment classified as a syntax example (and failing validation, so
that the wrapper path runs) is preserved verbatim and uncut inside the
wrapped output of `complete_config`, as a trailing annotation: the output
ends with the fragment followed by a newline, and hence contains the
fragment as a contiguous substring. -/
theorem claim9_syntax_example_preserved :
    ∀ (valid : List Char → Bool) (F : List Char),
      valid F = false → is_syntax_example F = true →
      (F ++ ['\n']) <:+ complete_config valid F ∧
      containsSubstr (complete_config valid F) F = true := by
  intro valid F hv hs
  have e : complete_config valid F = syntaxWrapper F := by
    simp [complete_config, hv, hs]
  rw [e]
  constructor
  · exact ⟨syntaxWrapperPrefix, by simp [syntaxWrapper]⟩
  · exact containsSubstr_append_left syntaxWrapperPrefix (F ++ ['\n']) F
      (containsSubstr_of_isPrefixOf (isPrefixOf_append_self F ['\n']))

/-- Witness for C9 at the spec's own scenario-style input `port 8080` with a
validator that rejects everything. -/
theorem claim9_witness :
    ("port 8080".toList ++ ['\n']) <:+
      complete_config (fun _ => false) "port 8080".toList ∧
    containsSubstr (complete_config (fun _ => false) "port 8080".toList)
      "port 8080".toList = true :=
  claim9_syntax_example_preserved (fun _ => false) "port 8080".toList rfl (by decide)

theorem syntaxWrapper_ne (F : List Char) : syntaxWrapper F ≠ F := by
  intro h
  have hl := congrArg List.length h
  simp [syntaxWrapper] at hl
  omega

/-- C4 (amended): for a fragment classified as a syntax example that fails
validation, `fix_kdl_block` substitutes the canonical wrapper only after the
wrapper itself passes validation; if the wrapper fails validation the
original fragment is returned unchanged (not annotated as a comment block —
the "attempted" case merely reports). -/
theorem claim4_amended_wrapper_fallback :
    ∀ (valid : List Char → Bool) (F : List Char),
      is_syntax_example F = true → valid F = false →
      (valid (syntaxWrapper F) = true → fix_kdl_block valid F = syntaxWrapper F) ∧
      (valid (syntaxWrapper F) = false → fix_kdl_block valid F = F) := by
  intro valid F hs hv
  have e : complete_config valid F = syntaxWrapper F := by
    simp [complete_config, hv, hs]
  constructor
  · intro hw
    simp only [fix_kdl_block, hv, Bool.false_eq_true, if_false, e]
    rw [if_pos ⟨syntaxWrapper_ne F, hw⟩]
  · intro hw
    simp only [fix_kdl_block, hv, Bool.false_eq_true, if_false, e]
    rw [if_neg (by simp [hw])]

/-- Witness for C4 (amended): with a validator accepting exactly the wrapper,
the wrapper is substituted; with a validator rejecting everything, the bare
original comes back. -/
theorem claim4_witness :
    fix_kdl_block (fun s => s == syntaxWrapper "weight 5".toList)
        "weight 5".toList = syntaxWrapper "weight 5".toList ∧
    fix_kdl_block (fun _ => false) "weight 5".toList = "weight 5".toList :=
  ⟨(claim4_amended_wrapper_fallback (fun s => s == syntaxWrapper "weight 5".toList)
      "weight 5".toList (by decide) (by decide)).1 (by simp),
   (claim4_amended_wrapper_fallback (fun _ => false)
      "weight 5".toList (by decide) rfl).2 rfl⟩

/-- C4 counterexample: on the spec's own scenario input `name "my-field"`,
when the wrapper fails validation the pipeline returns the bare original
fragment, which contains no comment annotation at all (no `/` character) —
not "the original fragment annotated as a comment block". -/
theorem claim4_counterexample :
    is_syntax_example "name \"my-field\"".toList = true ∧
    fix_kdl_block (fun _ => false) "name \"my-field\"".toList =
      "name \"my-field\"".toList ∧
    ("name \"my-field\"".toList.all (fun c => c != '/')) = true := by
  decide

/-- C1 (amended): for the two validator-guarded pipelines
(`complete_all_configs.fix_kdl_block` and
`convert_agent_syntax.fix_kdl_block`), the fragment substituted back into
the document either is the original fragment or passes validation.  (The
third script, `fix_configs.replace_kdl_block`, substitutes rewrites without
consulting the validator; see the counterexample.) -/
theorem claim1_amended_safety :
    ∀ (valid : List Char → Bool) (F : List Char),
      (fix_kdl_block valid F = F ∨ valid (fix_kdl_block valid F) = true) ∧
      (convert_fix_kdl_block valid F = F ∨
        valid (convert_fix_kdl_block valid F) = true) := by
  intro valid F
  constructor
  · simp only [fix_kdl_block]
    split
    · exact Or.inl rfl
    · split
      · next hcond => exact Or.inr hcond.2
      · exact Or.inl rfl
  · simp only [convert_fix_kdl_block]
    split
    · exact Or.inl rfl
    · split
      · split
        · next hcond => exact Or.inr hcond
        · split
          · split
            · next hcond => exact Or.inr hcond
            · exact Or.inl rfl
          · exact Or.inl rfl
      · exact Or.inl rfl

/-- C1 counterexample: `fix_configs.replace_kdl_block` substitutes a rewrite
of `server {\n}` without consulting the validator, so under a validator that
accepts only the original fragment, the substituted text is a rewrite that
fails validation — contradicting the claim for this pipeline. -/
theorem claim1_counterexample :
    replace_kdl_block_fragment "server \x7b\n\x7d".toList ≠ "server \x7b\n\x7d".toList ∧
    (fun s => s == "server \x7b\n\x7d".toList)
      (replace_kdl_block_fragment "server \x7b\n\x7d".toList) = false := by
  decide

/-- C5 (amended): the strip-and-retry of `convert_agent_syntax.fix_kdl_block`
runs only when the dialect rules actually changed the fragment.  If the
conversion is a no-op, the fragment is returned unchanged with no
re-validation and no retry, even when it contains `service-type "builtin"`.
When the conversion did change the fragment, the claim holds as stated: if
the converted text still fails validation and contains the directive, the
directive is stripped and validation retried exactly once; the stripped text
is substituted if that retry validates, and otherwise the pre-translation
fragment is returned unchanged. -/
theorem claim5_amended_retry :
    ∀ (valid : List Char → Bool) (F : List Char), valid F = false →
      ( convert_agent_syntax F = F → convert_fix_kdl_block valid F = F) ∧
      ( convert_agent_syntax F ≠ F →
        valid ( convert_agent_syntax F) = false →
        containsSubstr ( convert_agent_syntax F)
          ("service-type \"builtin\"".toList) = true →
        (valid (stripServiceType ( convert_agent_syntax F)) = true →
          convert_fix_kdl_block valid F =
            stripServiceType ( convert_agent_syntax F)) ∧
        (valid (stripServiceType ( convert_agent_syntax F)) = false →
          convert_fix_kdl_block valid F = F)) := by
  intro valid F hv
  constructor
  · intro heq
    simp only [convert_fix_kdl_block]
    rw [if_neg (by simp [hv]), if_neg (by simp [heq])]
  · intro hne hvc hcont
    constructor
    · intro hv2
      simp only [convert_fix_kdl_block]
      rw [if_neg (by simp [hv]), if_pos hne, if_neg (by simp [hvc]),
        if_pos hcont, if_pos hv2]
    · intro hv2
      simp only [convert_fix_kdl_block]
      rw [if_neg (by simp [hv]), if_pos hne, if_neg (by simp [hvc]),
        if_pos hcont, if_neg (by simp [hv2])]

/-- Witness for C5 (amended), changed-fragment branch: the events-array rule
rewrites the fragment, the result still fails a validator that rejects any
text containing `builtin`, the directive is present, and the stripped text
validates and is substituted. -/
theorem claim5_witness :
    convert_fix_kdl_block (fun s => !(containsSubstr s "builtin".toList))
        "events [\"a\"]\nservice-type \"builtin\"".toList = "events \"a\"".toList := by
  have h := ((claim5_amended_retry (fun s => !(containsSubstr s "builtin".toList))
      "events [\"a\"]\nservice-type \"builtin\"".toList (by decide)).2
      (by decide) (by decide) (by decide)).1 (by decide)
  rw [h]
  decide

/-- C5 counterexample: on `service-type "builtin"` alone the dialect rules
are a no-op, so although the fragment fails validation, contains the
directive, and stripping the directive would produce a validating text, no
retry happens and the fragment is returned unchanged — contradicting the
unconditional retry the claim describes. -/
theorem claim5_counterexample :
    (fun s => !(containsSubstr s "builtin".toList))
      ("service-type \"builtin\"".toList) = false ∧
    convert_agent_syntax ("service-type \"builtin\"".toList) =
      "service-type \"builtin\"".toList ∧
    containsSubstr ("service-type \"builtin\"".toList)
      ("service-type \"builtin\"".toList) = true ∧
    (fun s => !(containsSubstr s "builtin".toList))
      (stripServiceType ("service-type \"builtin\"".toList)) = true ∧
    stripServiceType ("service-type \"builtin\"".toList) ≠
      "service-type \"builtin\"".toList ∧
    convert_fix_kdl_block (fun s => !(containsSubstr s "builtin".toList))
      ("service-type \"builtin\"".toList) = "service-type \"builtin\"".toList := by
  decide

/-- C8 (amended): the dialect translation is the identity — and hence
idempotent — on every fragment containing none of the five rules' trigger
tokens (`transport`, `events`, `agent`, `schema-content`, `"#`).  Full
idempotence fails: see the counterexample, where the rule-5 rewrite exposes
a rule-1 transport pattern that only a second pass collapses. -/
theorem claim8_amended_identity_when_no_triggers :
    ∀ F : List Char,
      containsSubstr F "transport".toList = false →
      containsSubstr F "events".toList = false →
      containsSubstr F "agent".toList = false →
      containsSubstr F "schema-content".toList = false →
      containsSubstr F "\"#".toList = false →
      convert_agent_syntax F = F ∧
      convert_agent_syntax ( convert_agent_syntax F) = convert_agent_syntax F := by
  intro F h1 h2 h3 h4 h5
  have eTU : subScan tmTransportUnix F = F :=
    subScanF_id _ _ _ fun n => tmTransportUnix_none (containsSubstr_drop_eq_false h1 n)
  have eTG : subScan tmTransportGrpc F = F :=
    subScanF_id _ _ _ fun n => tmTransportGrpc_none (containsSubstr_drop_eq_false h1 n)
  have eEv : subScan tmEvents F = F :=
    subScanF_id _ _ _ fun n => tmEvents_none (containsSubstr_drop_eq_false h2 n)
  have eAg : subScan tmAgent F = F :=
    subScanF_id _ _ _ fun n => tmAgent_none (containsSubstr_drop_eq_false h3 n)
  have eSO : subScan tmSchemaOpen F = F :=
    subScanF_id _ _ _ fun n => tmSchemaOpen_none (containsSubstr_drop_eq_false h4 n)
  have eHC : subScan tmHashClose F = F :=
    subScanF_id _ _ _ fun n => tmHashClose_none (containsSubstr_drop_eq_false h5 n)
  have e : convert_agent_syntax F = F := by
    simp only [ convert_agent_syntax]
    rw [eTU, eTG, eEv, eAg, eSO, eHC]
  exact ⟨e, by rw [e]; exact e⟩

/-- Witness for C8 (amended) on a trigger-free fragment. -/
theorem claim8_witness :
    convert_agent_syntax "routes \x7b\n    route \"a\" \x7b \x7d\n\x7d".toList =
      "routes \x7b\n    route \"a\" \x7b \x7d\n\x7d".toList ∧
    convert_agent_syntax ( convert_agent_syntax
        "routes \x7b\n    route \"a\" \x7b \x7d\n\x7d".toList) =
      convert_agent_syntax "routes \x7b\n    route \"a\" \x7b \x7d\n\x7d".toList :=
  claim8_amended_identity_when_no_triggers
    "routes \x7b\n    route \"a\" \x7b \x7d\n\x7d".toList
    (by decide) (by decide) (by decide) (by decide) (by decide)

/-- C8 counterexample: on `transport "unix_socket" { path "/x"#\n}` the first
pass only rewrites the raw-string closer (rule 5), producing
`transport "unix_socket" { path "/x"\n    }`, which the transport rule of a
second pass collapses to `    unix-socket "/x"` — so the full rule sequence
is not idempotent. -/
theorem claim8_counterexample :
    convert_agent_syntax ( convert_agent_syntax
        "transport \"unix_socket\" \x7b path \"/x\"#\n\x7d".toList) ≠
      convert_agent_syntax
        "transport \"unix_socket\" \x7b path \"/x\"#\n\x7d".toList := by
  decide

/- ## Document scanner lemmas -/

theorem findClose_eq :
    ∀ (l content after : List Char), findClose l = some (content, after) →
      l = content ++ fenceClose ++ after := by
  intro l
  induction l with
  | nil => intro content after h; simp [findClose] at h
  | cons c rest ih =>
    intro content after h
    unfold findClose at h
    by_cases hp : fenceClose.isPrefixOf (c :: rest) = true
    · rw [if_pos hp] at h
      simp only [Option.some.injEq, Prod.mk.injEq] at h
      obtain ⟨h1, h2⟩ := h
      subst h1; subst h2
      have h3 : fenceClose.length = 3 := rfl
      have he := eq_append_drop_of_isPrefixOf fenceClose (c :: rest) hp
      rw [h3] at he
      simpa using he
    · rw [if_neg hp] at h
      cases hf : findClose rest with
      | none => rw [hf] at h; simp at h
      | some pa =>
        obtain ⟨content', after'⟩ := pa
        rw [hf] at h
        simp only [Option.some.injEq, Prod.mk.injEq] at h
        obtain ⟨h1, h2⟩ := h
        subst h1; subst h2
        have := ih content' after' hf
        simpa using congrArg (List.cons c) this

theorem findClose_append :
    ∀ (content post : List Char), content.all (fun c => c != '\x60') = true →
      findClose (content ++ (fenceClose ++ post)) = some (content, post) := by
  intro content
  induction content with
  | nil =>
    intro post _
    show findClose ('\x60' :: '\x60' :: '\x60' :: post) = some ([], post)
    have hfc : fenceClose = ['\x60', '\x60', '\x60'] := rfl
    simp [findClose, hfc, List.isPrefixOf]
  | cons c content' ih =>
    intro post hall
    have hall' := hall
    simp only [List.all_cons, Bool.and_eq_true] at hall'
    obtain ⟨hc, hrest⟩ := hall'
    show findClose (c :: (content' ++ (fenceClose ++ post))) = some (c :: content', post)
    unfold findClose
    rw [if_neg ?hne, ih post hrest]
    case hne =>
      intro hcontra
      have hfc : fenceClose = '\x60' :: ['\x60', '\x60'] := rfl
      rw [hfc] at hcontra
      simp only [List.isPrefixOf, Bool.and_eq_true, beq_iff_eq] at hcontra
      obtain ⟨h1, _⟩ := hcontra
      simp [← h1] at hc

theorem kdlSubF_id (repl : List Char → List Char)
    (hrepl : ∀ c, repl c = fenceOpen ++ c ++ fenceClose) :
    ∀ (fuel : Nat) (l : List Char), kdlSubF repl fuel l = l := by
  intro fuel
  induction fuel with
  | zero => intro l; rfl
  | succ fuel ih =>
    intro l
    cases l with
    | nil => rfl
    | cons c rest =>
      simp only [kdlSubF]
      by_cases hp : fenceOpen.isPrefixOf (c :: rest) = true
      · rw [if_pos hp]
        cases hf : findClose ((c :: rest).drop 7) with
        | none => simp [ih]
        | some ca =>
          obtain ⟨content, after⟩ := ca
          simp only [ih, hrepl]
          have hd := findClose_eq _ _ _ hf
          have h7 : fenceOpen.length = 7 := rfl
          have he := eq_append_drop_of_isPrefixOf fenceOpen (c :: rest) hp
          rw [h7, hd] at he
          simp [he]
      · rw [if_neg hp]
        simp [ih]

theorem kdlSubF_fuelIrrel (repl : List Char → List Char) :
    ∀ (f1 : Nat) (l : List Char) (f2 : Nat), l.length ≤ f1 → l.length ≤ f2 →
      kdlSubF repl f1 l = kdlSubF repl f2 l := by
  intro f1
  induction f1 with
  | zero =>
    intro l f2 h1 _
    have hl : l = [] := by
      cases l with
      | nil => rfl
      | cons c rest => simp at h1
    subst hl
    cases f2 <;> rfl
  | succ f1 ih =>
    intro l f2 h1 h2
    cases l with
    | nil => cases f2 <;> rfl
    | cons c rest =>
      cases f2 with
      | zero => simp at h2
      | succ f2 =>
        have hr1 : rest.length ≤ f1 := by simpa using h1
        have hr2 : rest.length ≤ f2 := by simpa using h2
        simp only [kdlSubF]
        by_cases hp : fenceOpen.isPrefixOf (c :: rest) = true
        · rw [if_pos hp, if_pos hp]
          cases hf : findClose ((c :: rest).drop 7) with
          | none => simp [ih rest f2 hr1 hr2]
          | some ca =>
            obtain ⟨content, after⟩ := ca
            have hd := findClose_eq _ _ _ hf
            have hlen : ((c :: rest).drop 7).length =
                content.length + 3 + after.length := by
              rw [hd]
              simp only [List.length_append]
              have h3 : fenceClose.length = 3 := rfl
              rw [h3]
            have hdl : ((c :: rest).drop 7).length = rest.length + 1 - 7 := by
              simp
            have ha1 : after.length ≤ f1 := by omega
            have ha2 : after.length ≤ f2 := by omega
            simp [ih after f2 ha1 ha2]
        · rw [if_neg hp, if_neg hp]
          simp [ih rest f2 hr1 hr2]

theorem open_append_cons (X : List Char) :
    fenceOpen ++ X = '\x60' :: '\x60' :: '\x60' :: 'k' :: 'd' :: 'l' :: '\n' :: X := rfl

theorem kdlSubF_step_open (repl : List Char → List Char)
    (content post : List Char) (fuel : Nat)
    (hcontent : content.all (fun c => c != '\x60') = true) :
    kdlSubF repl (fuel + 1) (fenceOpen ++ (content ++ (fenceClose ++ post))) =
      repl content ++ kdlSubF repl fuel post := by
  have hfc := findClose_append content post hcontent
  have hp : fenceOpen.isPrefixOf
      ('\x60' :: '\x60' :: '\x60' :: 'k' :: 'd' :: 'l' :: '\n' ::
        (content ++ (fenceClose ++ post))) = true := by
    rw [← open_append_cons]
    exact isPrefixOf_append_self fenceOpen (content ++ (fenceClose ++ post))
  have hdrop : (('\x60' : Char) :: '\x60' :: '\x60' :: 'k' :: 'd' :: 'l' :: '\n' ::
      (content ++ (fenceClose ++ post))).drop 7 = content ++ (fenceClose ++ post) := rfl
  rw [open_append_cons]
  simp only [kdlSubF]
  rw [if_pos hp, hdrop, hfc]

theorem kdlSubF_char (repl : List Char → List Char) (fuel : Nat) (c : Char)
    (rest : List Char) (hc : (c != '\x60') = true) :
    kdlSubF repl (fuel + 1) (c :: rest) = c :: kdlSubF repl fuel rest := by
  simp only [kdlSubF]
  rw [if_neg ?hne]
  case hne =>
    intro hcontra
    have hfo : fenceOpen = '\x60' :: ['\x60', '\x60', 'k', 'd', 'l', '\n'] := rfl
    rw [hfo] at hcontra
    simp only [List.isPrefixOf, Bool.and_eq_true, beq_iff_eq] at hcontra
    obtain ⟨h1, _⟩ := hcontra
    simp [← h1] at hc

theorem kdlSubF_frame (repl : List Char → List Char) :
    ∀ (pre content post : List Char) (fuel : Nat),
      (pre ++ (fenceOpen ++ (content ++ (fenceClose ++ post)))).length ≤ fuel →
      pre.all (fun c => c != '\x60') = true →
      content.all (fun c => c != '\x60') = true →
      kdlSubF repl fuel (pre ++ (fenceOpen ++ (content ++ (fenceClose ++ post)))) =
        pre ++ (repl content ++ kdlSub repl post) := by
  intro pre
  induction pre with
  | nil =>
    intro content post fuel hfuel _ hcontent
    cases fuel with
    | zero =>
      exfalso
      have h7 : fenceOpen.length = 7 := rfl
      simp [List.length_append, h7] at hfuel
    | succ fuel =>
      simp only [List.nil_append]
      rw [kdlSubF_step_open repl content post fuel hcontent]
      have hpost : post.length ≤ fuel := by
        have h7 : fenceOpen.length = 7 := rfl
        have h3 : fenceClose.length = 3 := rfl
        simp [List.length_append, h7, h3] at hfuel
        omega
      have := kdlSubF_fuelIrrel repl fuel post post.length hpost (Nat.le_refl _)
      rw [this]
      rfl
  | cons c pre' ih =>
    intro content post fuel hfuel hpre hcontent
    have hpre' := hpre
    simp only [List.all_cons, Bool.and_eq_true] at hpre'
    obtain ⟨hc, hprerest⟩ := hpre'
    cases fuel with
    | zero =>
      exfalso
      simp at hfuel
    | succ fuel =>
      simp only [List.cons_append]
      rw [kdlSubF_char repl fuel c _ hc]
      have hlen : (pre' ++ (fenceOpen ++ (content ++ (fenceClose ++ post)))).length ≤ fuel := by
        simp only [List.cons_append, List.length_cons] at hfuel
        omega
      rw [ih content post fuel hlen hprerest hcontent]

/-- C2: a fragment that already validates is returned unchanged by
`complete_config`, by `complete_all_configs.fix_kdl_block`, and by
`convert_agent_syntax.fix_kdl_block` — no completion, wrapping, or
translation is applied — and when every fragment of a document validates,
`complete_all_configs.process_file` reproduces the document byte for byte. -/
theorem claim2_valid_identity :
    ∀ valid : List Char → Bool,
      (∀ F, valid F = true →
        complete_config valid F = F ∧ fix_kdl_block valid F = F ∧
        convert_fix_kdl_block valid F = F) ∧
      ((∀ c, valid c = true) → ∀ doc, process_file_complete_all valid doc = doc) := by
  intro valid
  constructor
  · intro F hv
    refine ⟨?_, ?_, ?_⟩
    · simp [complete_config, hv]
    · simp [fix_kdl_block, hv]
    · simp [convert_fix_kdl_block, hv]
  · intro hall doc
    unfold process_file_complete_all kdlSub
    exact kdlSubF_id (completeAllRepl valid)
      (fun c => by simp [completeAllRepl, hall c]) doc.length doc

/-- Witness for C2 on a concrete fragment and document with an
all-accepting validator. -/
theorem claim2_witness :
    complete_config (fun _ => true) "port 1".toList = "port 1".toList ∧
    fix_kdl_block (fun _ => true) "port 1".toList = "port 1".toList ∧
    convert_fix_kdl_block (fun _ => true) "port 1".toList = "port 1".toList ∧
    process_file_complete_all (fun _ => true)
      "a\n```kdl\nx\n```\nb".toList = "a\n```kdl\nx\n```\nb".toList :=
  ⟨((claim2_valid_identity (fun _ => true)).1 "port 1".toList rfl).1,
   ((claim2_valid_identity (fun _ => true)).1 "port 1".toList rfl).2.1,
   ((claim2_valid_identity (fun _ => true)).1 "port 1".toList rfl).2.2,
   (claim2_valid_identity (fun _ => true)).2 (fun _ => rfl) "a\n```kdl\nx\n```\nb".toList⟩

/-- C10 (amended): the document scan only rewrites the interiors of matched
```` ```kdl ```` fenced regions — for any replacement function, a document
splitting as `pre ++ fence ++ content ++ fence ++ post` (with `pre` and
`content` free of backticks) maps to `pre` unchanged, the replaced region,
and the scan of `post`.  For `complete_all_configs`, a region whose fragment
is not rewritten is reproduced exactly (`group(0)`) and a rewritten region
carries a validated fragment plus a newline; `fix_configs` re-emits every
processed region with an extra newline before the closing fence, even when
the fragment is unchanged (see the counterexample). -/
theorem claim10_amended_frame :
    (∀ (repl : List Char → List Char) (pre content post : List Char),
      pre.all (fun c => c != '\x60') = true →
      content.all (fun c => c != '\x60') = true →
      kdlSub repl (pre ++ (fenceOpen ++ (content ++ (fenceClose ++ post)))) =
        pre ++ (repl content ++ kdlSub repl post)) ∧
    (∀ (valid : List Char → Bool) (content : List Char),
      completeAllRepl valid content = fenceOpen ++ content ++ fenceClose ∨
      ∃ c, valid c = true ∧
        completeAllRepl valid content = fenceOpen ++ c ++ '\n' :: fenceClose) ∧
    (∀ content : List Char,
      fixConfigsRepl content =
        fenceOpen ++ replace_kdl_block_fragment content ++ '\n' :: fenceClose) := by
  refine ⟨?_, ?_, ?_⟩
  · intro repl pre content post hpre hcontent
    exact kdlSubF_frame repl pre content post _ (Nat.le_refl _) hpre hcontent
  · intro valid content
    simp only [completeAllRepl]
    split
    · exact Or.inl rfl
    · split
      · next hcond => exact Or.inr ⟨complete_config valid content, hcond.2, rfl⟩
      · exact Or.inl rfl
  · intro content
    rfl

/-- Witness for C10 (amended) at a concrete document decomposition. -/
theorem claim10_witness :
    kdlSub (fun _ => "R".toList)
        ("ab".toList ++ (fenceOpen ++ ("x\n".toList ++ (fenceClose ++ "cd".toList)))) =
      "ab".toList ++ ("R".toList ++ kdlSub (fun _ => "R".toList) "cd".toList) :=
  claim10_amended_frame.1 (fun _ => "R".toList) "ab".toList "x\n".toList "cd".toList
    (by decide) (by decide)

/-- C10 counterexample: `fix_configs.process_file` does not reproduce a
fenced block whose fragment it leaves unchanged — it always inserts an extra
newline before the closing fence (`prefix + kdl_content + '\n' + suffix`),
so the output document differs even though the fragment is untouched. -/
theorem claim10_counterexample :
    replace_kdl_block_fragment "system \x7b\n\x7d\n\nlisteners \x7b\n\x7d\n".toList =
      "system \x7b\n\x7d\n\nlisteners \x7b\n\x7d\n".toList ∧
    process_file_fix_configs
        "# t\n```kdl\nsystem \x7b\n\x7d\n\nlisteners \x7b\n\x7d\n```\nx".toList ≠
      "# t\n```kdl\nsystem \x7b\n\x7d\n\nlisteners \x7b\n\x7d\n```\nx".toList := by
  decide

/-- C7 (amended): the five-lines-or-fewer `listeners`/`limits` suppression
belongs to `fix_configs.should_skip_wrapping` only: such fragments are left
unchanged by `fix_configs.wrap_incomplete_snippet`, regardless of validation
(this script never validates).  The Structural Completer of
`complete_all_configs` has no such suppression and can rewrite those same
fragments (see the counterexample). -/
theorem claim7_amended_skip_short :
    ∀ config : List Char,
      pyLineCount (pyStrip config) ≤ 5 →
      ("listeners \x7b".toList.isPrefixOf (pyStrip config) = true ∨
       "limits \x7b".toList.isPrefixOf (pyStrip config) = true) →
      wrap_incomplete_snippet config = config := by
  intro config hlines hstart
  have hskip : should_skip_wrapping config = true := by
    unfold should_skip_wrapping
    have hd : (decide (pyLineCount (pyStrip config) ≤ 5) &&
        ("listeners \x7b".toList.isPrefixOf (pyStrip config) ||
         "limits \x7b".toList.isPrefixOf (pyStrip config))) = true := by
      rw [Bool.and_eq_true]
      refine ⟨decide_eq_true hlines, ?_⟩
      rw [Bool.or_eq_true]
      exact hstart
    rw [hd]
    simp
  simp [wrap_incomplete_snippet, hskip]

/-- Witness for C7 (amended): a three-line `limits` fragment is left
untouched by the wrapping step. -/
theorem claim7_witness :
    wrap_incomplete_snippet "limits \x7b\n    max-connections 100\n\x7d".toList =
      "limits \x7b\n    max-connections 100\n\x7d".toList :=
  claim7_amended_skip_short "limits \x7b\n    max-connections 100\n\x7d".toList
    (by decide) (Or.inr (by decide))

/-- C7 counterexample: the same three-line `limits` fragment is NOT left
untouched by the completion pipeline of `complete_all_configs`: under a
validator that rejects the fragment but accepts its completion,
`fix_kdl_block` substitutes a rewrite. -/
theorem claim7_counterexample :
    pyLineCount (pyStrip "limits \x7b\n    max-connections 100\n\x7d".toList) ≤ 5 ∧
    "limits \x7b".toList.isPrefixOf
      (pyStrip "limits \x7b\n    max-connections 100\n\x7d".toList) = true ∧
    fix_kdl_block
        (fun s => !(s == "limits \x7b\n    max-connections 100\n\x7d".toList))
        "limits \x7b\n    max-connections 100\n\x7d".toList ≠
      "limits \x7b\n    max-connections 100\n\x7d".toList := by
  decide

/-- C3 (amended): the Structural Completer never re-appends the `system`,
`listeners`, or `routes` templates when the corresponding block is present,
but the paired `upstreams` template is appended whenever a `routes` block is
synthesized — even when an `upstreams` block is already present
(`needs_upstreams = True` on line 122) — i.e. the upstreams template is
appended iff `routes` is absent or `upstreams` is absent.  (The hypothesis
that the stripped fragment is not itself one of the four templates only
rules out degenerate aliasing in the membership statement.) -/
theorem claim3_amended_completion_blocks :
    ∀ config : List Char,
      pyStrip config ∉
        [systemTemplate, listenersTemplate, routesTemplate, upstreamsTemplate] →
      ((systemTemplate ∈ completionParts config ↔
          has_block config systemName = false) ∧
       (listenersTemplate ∈ completionParts config ↔
          has_block config listenersName = false) ∧
       (routesTemplate ∈ completionParts config ↔
          has_block config routesName = false) ∧
       (upstreamsTemplate ∈ completionParts config ↔
          (has_block config routesName = false ∨
           has_block config upstreamsName = false))) := by
  intro config hstrip
  simp only [List.mem_cons, List.mem_singleton, not_or] at hstrip
  obtain ⟨hs1, hs2, hs3, ⟨hs4, -⟩⟩ := hstrip
  have d12 : systemTemplate ≠ listenersTemplate := by decide
  have d13 : systemTemplate ≠ routesTemplate := by decide
  have d14 : systemTemplate ≠ upstreamsTemplate := by decide
  have d23 : listenersTemplate ≠ routesTemplate := by decide
  have d24 : listenersTemplate ≠ upstreamsTemplate := by decide
  have d34 : routesTemplate ≠ upstreamsTemplate := by decide
  cases hA : has_block config systemName <;>
    cases hB : has_block config listenersName <;>
      cases hC : has_block config routesName <;>
        cases hD : has_block config upstreamsName <;>
          simp [completionParts, hA, hB, hC, hD,
            d12, d13, d14, d23, d24, d34,
            Ne.symm d12, Ne.symm d13, Ne.symm d14,
            Ne.symm d23, Ne.symm d24, Ne.symm d34,
            Ne.symm hs1, Ne.symm hs2, Ne.symm hs3, Ne.symm hs4]

/-- Witness for C3 (amended) on a fragment containing none of the four
top-level blocks: all four templates are appended. -/
theorem claim3_witness :
    systemTemplate ∈ completionParts "waf \x7b\n\x7d".toList ∧
    listenersTemplate ∈ completionParts "waf \x7b\n\x7d".toList ∧
    routesTemplate ∈ completionParts "waf \x7b\n\x7d".toList ∧
    upstreamsTemplate ∈ completionParts "waf \x7b\n\x7d".toList :=
  ⟨((claim3_amended_completion_blocks "waf \x7b\n\x7d".toList (by decide)).1).mpr
      (by decide),
   ((claim3_amended_completion_blocks "waf \x7b\n\x7d".toList (by decide)).2.1).mpr
      (by decide),
   ((claim3_amended_completion_blocks "waf \x7b\n\x7d".toList (by decide)).2.2.1).mpr
      (by decide),
   ((claim3_amended_completion_blocks "waf \x7b\n\x7d".toList (by decide)).2.2.2).mpr
      (Or.inl (by decide))⟩

/-- C3 counterexample: a fragment that already contains a top-level
`upstreams` block but no `routes` block still gets the `upstreams` template
appended by the Structural Completer (the synthesized routes block forces
it), and under a validator accepting exactly the assembled candidate,
`complete_config` substitutes that candidate — so a block already present is
added a second time, contradicting completion minimality. -/
theorem claim3_counterexample :
    has_block "upstreams \x7b\n    upstream \"backend\" \x7b\n    \x7d\n\x7d".toList
      upstreamsName = true ∧
    pyStrip "upstreams \x7b\n    upstream \"backend\" \x7b\n    \x7d\n\x7d".toList ≠
      upstreamsTemplate ∧
    upstreamsTemplate ∈
      completionParts "upstreams \x7b\n    upstream \"backend\" \x7b\n    \x7d\n\x7d".toList ∧
    complete_config
        (fun s => s == completedCandidate
          "upstreams \x7b\n    upstream \"backend\" \x7b\n    \x7d\n\x7d".toList)
        "upstreams \x7b\n    upstream \"backend\" \x7b\n    \x7d\n\x7d".toList ≠
      "upstreams \x7b\n    upstream \"backend\" \x7b\n    \x7d\n\x7d".toList := by
  decide

end KdlDocs
